import Mathlib

/-
Verification of the cuSZ compression core against its specification.

The development shallow-embeds the pieces of the source that the claims
speak about:

* the 1D dual-output Lorenzo kernels `cusz::c_lorenzo_1d1l` and
  `cusz::x_lorenzo_1d1l` together with their device helpers
  `load1d` / `pred1d_postquant` / `write1d` (src/src/utils/format.cc);
* the residual computation of the 3D kernel
  `cusz::c_lorenzo_3d1l_32x8x8data_mapto32x1x8`;
* the orchestration logic of `DefaultPathCompressor` (default_path.cuh):
  `codec_do_with_exception`, `update_header`, `subfile_collect`,
  `allocate_workspace`, and the decompress-side codec dispatch.

Device floating point data is modelled by rationals, quant codes by
unbounded integers (the uint16 quant type is exact on the quantizable
range `0 < delta + radius < 2 * radius` for the default radius), and the
header entry table by naturals reduced mod 2^32 as in the uint32 source.
-/

namespace Cusz

/-- Boolean-to-integer promotion, as in the C expressions
`quantizable * candidate` and `(1 - quantizable) * candidate` where
`quantizable` is a `bool`. -/
def b2i (b : Bool) : ℤ := if b then 1 else 0

/-- The C library `round` (round half away from zero), applied in the
prequantization `round(data[id] * ebx2_r)` of `load1d`. -/
def roundAway (x : ℚ) : ℤ := if 0 ≤ x then ⌊x + 1 / 2⌋ else -⌊-x + 1 / 2⌋

/-- Prequantized value of sample `i`: `round(data[id] * ebx2_r)` in
`load1d`; the kernel parameter `ebx2_r` is documented as the
precalculated reciprocal of `eb * 2`. -/
def prequant1d (s : ℕ → ℚ) (ebx2_r : ℚ) (i : ℕ) : ℤ := roundAway (s i * ebx2_r)

/-- Tile width of the 1D kernels (`BLOCK = 256` in both
`cusz::c_lorenzo_1d1l` and `cusz::x_lorenzo_1d1l`). -/
def BLOCK1D : ℕ := 256

/-- Lorenzo 1D prediction: each sample is predicted by its in-tile
predecessor; the first sample of a 256-wide tile is predicted by the
implicit zero (`from_last_stripe` stays `0` for thread 0, and
`pred1d_postquant` with `FIRST_POINT` subtracts it). -/
def pred1d (sq : ℕ → ℤ) (i : ℕ) : ℤ := if i % BLOCK1D = 0 then 0 else sq (i - 1)

/-- Residual of sample `i`: `delta = thread_scope[i] - thread_scope[i-1]`
(or `- from_last_stripe` at a stripe head) in `pred1d_postquant`. -/
def delta1d (s : ℕ → ℚ) (ebx2_r : ℚ) (i : ℕ) : ℤ :=
  prequant1d s ebx2_r i - pred1d (prequant1d s ebx2_r) i

/-- `bool quantizable = fabs(delta) < radius;` in `pred1d_postquant` and
`postquant_write2d` (the residual is an integer-valued float). -/
def quantizable (radius delta : ℤ) : Bool := decide (|delta| < radius)

/-- Quant-code write of `pred1d_postquant`:
`shmem_quant[..] = quantizable * static_cast<ErrCtrl>(candidate)` with
`candidate = delta + radius`; the cast to the unsigned quant type is
exact on the quantizable range and the code is kept as an integer. -/
def pq_quant (radius delta : ℤ) : ℤ := b2i (quantizable radius delta) * (delta + radius)

/-- Outlier write of `pred1d_postquant`:
`shmem_data[..] = (1 - quantizable) * candidate` (the data buffer is
reused for the outlier plane), a real-valued output. -/
def pq_outlier (radius delta : ℤ) : ℚ :=
  (((1 - b2i (quantizable radius delta)) * (delta + radius) : ℤ) : ℚ)

/-- Quant output of `cusz::c_lorenzo_1d1l` at index `i`; `write1d` stores
it for every `i < dimx` (indices past `dimx` are never written). -/
def c_lorenzo_1d1l_quant (s : ℕ → ℚ) (ebx2_r : ℚ) (radius : ℤ) (i : ℕ) : ℤ :=
  pq_quant radius (delta1d s ebx2_r i)

/-- Outlier output of `cusz::c_lorenzo_1d1l` at index `i` (same guard). -/
def c_lorenzo_1d1l_outlier (s : ℕ → ℚ) (ebx2_r : ℚ) (radius : ℤ) (i : ℕ) : ℚ :=
  pq_outlier radius (delta1d s ebx2_r i)

/-- First index of the 256-wide tile containing `i`
(`id_base = BIX * BLOCK`). -/
def blockStart (i : ℕ) : ℕ := BLOCK1D * (i / BLOCK1D)

/-- Fused delta restoration in `cusz::x_lorenzo_1d1l`:
`thread_scope.xdata[i] = id < dimx ? outlier[i] + (Data)quant[i] - radius : 0`. -/
def x_delta (quant : ℕ → ℤ) (outlier : ℕ → ℚ) (radius : ℤ) (dimx i : ℕ) : ℚ :=
  if i < dimx then outlier i + (quant i : ℚ) - (radius : ℚ) else 0

/-- The tile-wide inclusive prefix sum performed by
`BlockScanT_xdata(..).InclusiveSum` over the 256 values of a tile. -/
def inclusiveScan (f : ℕ → ℚ) (i : ℕ) : ℚ := ∑ j in Finset.Icc (blockStart i) i, f j

/-- Output of `cusz::x_lorenzo_1d1l` at index `i`: inclusive scan of the
restored deltas over the tile, then scaled by `ebx2` (the precalculated
`eb * 2`). -/
def x_lorenzo_1d1l (quant : ℕ → ℤ) (outlier : ℕ → ℚ) (dimx : ℕ) (radius : ℤ)
    (ebx2 : ℚ) (i : ℕ) : ℚ :=
  inclusiveScan (x_delta quant outlier radius dimx) i * ebx2

/-- The 1D compress-then-decompress round trip of the default path:
`c_lorenzo_1d1l` with `ebx2_r = 1/(2*eb)` followed by `x_lorenzo_1d1l`
with `ebx2 = 2*eb`, both on the same `radius` and shape. -/
def lorenzo_roundtrip_1d (s : ℕ → ℚ) (eb : ℚ) (radius : ℤ) (dimx i : ℕ) : ℚ :=
  x_lorenzo_1d1l (c_lorenzo_1d1l_quant s (1 / (2 * eb)) radius)
    (c_lorenzo_1d1l_outlier s (1 / (2 * eb)) radius) dimx radius (2 * eb) i

/-- Residual computation of `cusz::c_lorenzo_3d1l_32x8x8data_mapto32x1x8`
on the prequantized tile held in shared memory; `sh` gives the tile in
local coordinates `[z][y][x]` and each neighbor access is guarded to 0
exactly as in the kernel source. -/
def delta3d (sh : ℕ → ℕ → ℕ → ℤ) (z y x : ℕ) : ℤ :=
  sh z y x -
    ((if 0 < z ∧ 0 < y ∧ 0 < x then sh (z - 1) (y - 1) (x - 1) else 0)
      - (if 0 < y ∧ 0 < x then sh z (y - 1) (x - 1) else 0)
      - (if 0 < z ∧ 0 < x then sh (z - 1) y (x - 1) else 0)
      - (if 0 < z ∧ 0 < y then sh (z - 1) (y - 1) x else 0)
      + (if 0 < x then sh z y (x - 1) else 0)
      + (if 0 < y then sh z (y - 1) x else 0)
      + (if 0 < z then sh (z - 1) y x else 0))

/-- The 3D Lorenzo prediction as the spec words it: sum of the three
face neighbors, minus the three edge neighbors, plus the corner neighbor
(inclusion-exclusion over the seven lower-index neighbors), out-of-grid
neighbors contributing zero. Stated from the spec for comparison with
the prediction inside `delta3d`. -/
def lorenzoPred3dSpec (sh : ℕ → ℕ → ℕ → ℤ) (z y x : ℕ) : ℤ :=
  ((if 0 < x then sh z y (x - 1) else 0)
      + (if 0 < y then sh z (y - 1) x else 0)
      + (if 0 < z then sh (z - 1) y x else 0))
    - ((if 0 < y ∧ 0 < x then sh z (y - 1) (x - 1) else 0)
      + (if 0 < z ∧ 0 < x then sh (z - 1) y (x - 1) else 0)
      + (if 0 < z ∧ 0 < y then sh (z - 1) (y - 1) x else 0))
    + (if 0 < z ∧ 0 < y ∧ 0 < x then sh (z - 1) (y - 1) (x - 1) else 0)

/-- The restore rule as the spec words it:
`delta = (Q == 0 ? O : Q - radius)`. Stated from the spec for comparison
with the fused `x_delta` of the source. -/
def spec_x_delta (quant : ℕ → ℤ) (outlier : ℕ → ℚ) (radius : ℤ) (i : ℕ) : ℚ :=
  if quant i = 0 then outlier i else ((quant i - radius : ℤ) : ℚ)

/-- Exactly one of two propositions holds. -/
def exactlyOne (p q : Prop) : Prop := (p ∧ ¬q) ∨ (¬p ∧ q)

/-- State of the input buffer after a compress call. In
`DefaultPathCompressor::compress` the predictor call
`construct(uncompressed, eb, radius, d_anchor, d_errctrl, stream)`
exposes no separate outlier output and `spreducer_do` gathers the
outliers from `uncompressed` afterwards: the kernels write the dense
outlier plane through their `outlier` pointer, which the default path
aliases to the input buffer (the kernel comment reads
`output; reuse data for outlier`), so after compression element `i`
of the callers buffer holds the outlier-plane value. -/
def buffer_after_compress (s : ℕ → ℚ) (eb : ℚ) (radius : ℤ) (i : ℕ) : ℚ :=
  c_lorenzo_1d1l_outlier s (1 / (2 * eb)) radius i

/-- Calls observable at the codec boundary of `DefaultPathCompressor`
during one compress or decompress: the width-4 encode attempt, the lazy
workspace allocation of the 8-byte fallback codec, the fallback encode,
and the two decodes. -/
inductive CodecCall where
  | encode4 : CodecCall
  | alloc_fb : CodecCall
  | encode8 : CodecCall
  | decode4 : CodecCall
  | decode8 : CodecCall
deriving DecidableEq

/-- The two codec-related flags of `DefaultPathCompressor`:
`use_fallback_codec` (initially `false`, reset to `false` at the end of
each compress and decompress) and `fallback_codec_allocated`. -/
structure FallbackState where
  use_fallback_codec : Bool
  fallback_codec_allocated : Bool
deriving DecidableEq

/-- `encode_with_fallback_codec` in `DefaultPathCompressor::compress`:
set `use_fallback_codec`, allocate the 8-byte codec workspace if it is
not yet allocated, then encode the same quant-code stream with the
8-byte codec. Returns the new state and the calls performed. -/
def encode_with_fallback_codec (st : FallbackState) : FallbackState × List CodecCall :=
  (⟨true, true⟩,
    (if st.fallback_codec_allocated then [] else [CodecCall.alloc_fb]) ++ [CodecCall.encode8])

/-- `codec_do_with_exception` in `DefaultPathCompressor::compress`:
unless the caller forces the fallback, attempt the 4-byte encode; if it
throws (the code-length-overflow `runtime_error`), catch it once and run
`encode_with_fallback_codec`. `encode4_throws` abstracts whether
`(*codec).encode` raises. -/
def codec_do_with_exception (codec_force_fallback encode4_throws : Bool)
    (st : FallbackState) : FallbackState × List CodecCall :=
  if !codec_force_fallback then
    if !encode4_throws then (st, [CodecCall.encode4])
    else
      let r := encode_with_fallback_codec st
      (r.1, CodecCall.encode4 :: r.2)
  else encode_with_fallback_codec st

/-- `update_header` in `DefaultPathCompressor::compress`:
`header.byte_vle = use_fallback_codec ? 8 : 4`. -/
def update_header_byte_vle (st : FallbackState) : ℕ :=
  if st.use_fallback_codec then 8 else 4

/-- `codec_do_with_exception` inside `DefaultPathCompressor::decompress`:
`use_fallback_codec = header->byte_vle == 8`; decode with the 4-byte
codec unless the header demands the 8-byte one, in which case the
fallback codec is allocated lazily first. Returns
(`use_fallback_codec`, `fallback_codec_allocated` afterwards, calls). -/
def decompress_codec_do (byte_vle : ℕ) (fallback_codec_allocated : Bool) :
    Bool × Bool × List CodecCall :=
  if !(byte_vle == 8) then (false, fallback_codec_allocated, [CodecCall.decode4])
  else
    (true, true,
      (if fallback_codec_allocated then [] else [CodecCall.alloc_fb]) ++ [CodecCall.decode8])

/-- `sizeof(T)` for the default path (`DATA = float`). -/
def SIZEOF_T : ℕ := 4

/-- `2 ^ 32`; `header.entry[]` and `nbyte[]` are `uint32`. -/
def U32 : ℕ := 4294967296

/-- The per-subfile byte counts `nbyte[]` in `subfile_collect`:
`nbyte[HEADER] = 128`, `nbyte[ANCHOR] = sizeof(T) * anchor_len`,
`nbyte[VLE] = codec_out_len`, `nbyte[SPFMT] = spfmt_out_len`
(slot order `HEADER = 0, ANCHOR = 1, VLE = 2, SPFMT = 3`). -/
def subfile_nbyte (anchor_len codec_out_len spfmt_out_len : ℕ) : ℕ → ℕ
  | 0 => 128
  | 1 => SIZEOF_T * anchor_len
  | 2 => codec_out_len
  | 3 => spfmt_out_len
  | _ => 0

/-- `header.entry[]` after the two loops of `subfile_collect`:
`entry[0] = 0`, then `entry[i] = nbyte[i-1]` followed by the running
accumulation `entry[i] += entry[i-1]`, i.e.
`entry[k+1] = entry[k] + nbyte[k]` in `uint32` arithmetic. -/
def header_entry (anchor_len codec_out_len spfmt_out_len : ℕ) : ℕ → ℕ
  | 0 => 0
  | k + 1 =>
    (header_entry anchor_len codec_out_len spfmt_out_len k
      + subfile_nbyte anchor_len codec_out_len spfmt_out_len k % U32) % U32

/-- Modelled from the spec: `cuszHEADER::file_size()` (header.hh is not
in the source tree); per spec section 4.4 step 7 the reported
`compressed_len` equals `entry[END]` with `END = 4`. -/
def header_file_size (anchor_len codec_out_len spfmt_out_len : ℕ) : ℕ :=
  header_entry anchor_len codec_out_len spfmt_out_len 4

/-- `compressed_len = header.file_size()` at the end of
`DefaultPathCompressor::compress`. -/
def compressed_len (anchor_len codec_out_len spfmt_out_len : ℕ) : ℕ :=
  header_file_size anchor_len codec_out_len spfmt_out_len

/-- Size of the reserved output buffer:
`cudaMalloc(&d_reserved_compressed, (*predictor).get_data_len() * sizeof(T) / 2)`
in `allocate_workspace`. -/
def reserved_len (data_len : ℕ) : ℕ := data_len * SIZEOF_T / 2

/-- The error kind the spec postulates for inflated output. -/
inductive CompressError where
  | outputInflation : CompressError
deriving DecidableEq

/-- Outcome of the tail of `DefaultPathCompressor::compress`
(`subfile_collect` and the reporting of `compressed_len`): the source
issues the subfile copies and reports `header.file_size()`
unconditionally; no size check against the reserved buffer exists, so
the result is always `ok`. -/
def compress_collect (anchor_len codec_out_len spfmt_out_len : ℕ) :
    Except CompressError ℕ :=
  Except.ok (compressed_len anchor_len codec_out_len spfmt_out_len)

/-- Modelled from the spec: `Reinterpret1DTo2D::get_square_size`
(common.hh is not in the source tree); per spec section 4.2 it is
`m = ceil(sqrt(N))`, matching the drivers `static_cast<size_t>(ceil(sqrt(len)))`. -/
def get_square_size (len : ℕ) : ℕ :=
  if Nat.sqrt len * Nat.sqrt len = len then Nat.sqrt len else Nat.sqrt len + 1

/-- Number of input elements read by `spreducer_do` in
`DefaultPathCompressor::compress`:
`(*spreducer).gather(uncompressed, m * m, ...)` with
`m = Reinterpret1DTo2D::get_square_size(data_len)`. -/
def spreducer_gather_len (data_len : ℕ) : ℕ :=
  get_square_size data_len * get_square_size data_len

/-- Number of elements the driver allocates for the input buffer:
`Capsule<T> in_data(mxm)` with `mxm = m * m` in `main` and
`normal_path_lorenzo`. -/
def driver_alloc_len (data_len : ℕ) : ℕ :=
  get_square_size data_len * get_square_size data_len

end Cusz

namespace Cusz

theorem roundAway_sub_le (x : ℚ) : |(roundAway x : ℚ) - x| ≤ 1 / 2 := by
  unfold roundAway
  by_cases h : 0 ≤ x
  · rw [if_pos h]
    have h1 : ((⌊x + 1 / 2⌋ : ℤ) : ℚ) ≤ x + 1 / 2 := Int.floor_le _
    have h2 : x + 1 / 2 < (⌊x + 1 / 2⌋ : ℤ) + 1 := Int.lt_floor_add_one _
    rw [abs_le]
    constructor <;> [linarith; linarith]
  · rw [if_neg h]
    have h1 : ((⌊-x + 1 / 2⌋ : ℤ) : ℚ) ≤ -x + 1 / 2 := Int.floor_le _
    have h2 : -x + 1 / 2 < (⌊-x + 1 / 2⌋ : ℤ) + 1 := Int.lt_floor_add_one _
    have hneg : (((-⌊-x + 1 / 2⌋ : ℤ) : ℚ)) - x = -(((⌊-x + 1 / 2⌋ : ℤ) : ℚ) - (-x)) := by
      push_cast
      ring
    rw [hneg, abs_neg, abs_le]
    constructor <;> [linarith; linarith]

theorem b2i_false : b2i false = 0 := rfl

theorem b2i_true : b2i true = 1 := rfl

theorem pq_restore (radius delta : ℤ) :
    pq_outlier radius delta + (pq_quant radius delta : ℚ) - (radius : ℚ) = (delta : ℚ) := by
  unfold pq_outlier pq_quant
  cases quantizable radius delta <;>
    · simp only [b2i_false, b2i_true]
      push_cast
      ring

theorem x_delta_restore (s : ℕ → ℚ) (ebx2_r : ℚ) (radius : ℤ) (dimx i : ℕ)
    (hi : i < dimx) :
    x_delta (c_lorenzo_1d1l_quant s ebx2_r radius) (c_lorenzo_1d1l_outlier s ebx2_r radius)
      radius dimx i = ((delta1d s ebx2_r i : ℤ) : ℚ) := by
  unfold x_delta c_lorenzo_1d1l_quant c_lorenzo_1d1l_outlier
  rw [if_pos hi]
  exact pq_restore radius (delta1d s ebx2_r i)

example : roundAway (3 / 4) = 1 := by norm_num [roundAway]
example : roundAway (-1) = -1 := by norm_num [roundAway]
example : delta1d (fun _ => (3 : ℚ) / 4) 1 0 = 1 := by
  norm_num [delta1d, prequant1d, pred1d, roundAway, BLOCK1D]

theorem blockStart_le (i : ℕ) : blockStart i ≤ i := by
  unfold blockStart BLOCK1D
  omega

theorem blockStart_succ_of_mod (i : ℕ) (h : (i + 1) % BLOCK1D = 0) :
    blockStart (i + 1) = i + 1 := by
  unfold blockStart BLOCK1D at *
  omega

theorem blockStart_succ_of_mod_ne (i : ℕ) (h : (i + 1) % BLOCK1D ≠ 0) :
    blockStart (i + 1) = blockStart i := by
  unfold blockStart BLOCK1D at *
  omega

theorem scan_restore (s : ℕ → ℚ) (ebx2_r : ℚ) (radius : ℤ) (dimx : ℕ) :
    ∀ i, i < dimx →
      inclusiveScan
        (x_delta (c_lorenzo_1d1l_quant s ebx2_r radius) (c_lorenzo_1d1l_outlier s ebx2_r radius)
          radius dimx) i
        = ((prequant1d s ebx2_r i : ℤ) : ℚ) := by
  intro i
  induction i with
  | zero =>
    intro h0
    have hbs : blockStart 0 = 0 := by unfold blockStart; simp
    rw [inclusiveScan, hbs, Finset.Icc_self, Finset.sum_singleton,
      x_delta_restore s ebx2_r radius dimx 0 h0]
    have hd : delta1d s ebx2_r 0 = prequant1d s ebx2_r 0 := by
      unfold delta1d pred1d BLOCK1D
      norm_num
    rw [hd]
  | succ i ih =>
    intro hsucc
    by_cases hb : (i + 1) % BLOCK1D = 0
    · rw [inclusiveScan, blockStart_succ_of_mod i hb, Finset.Icc_self, Finset.sum_singleton,
        x_delta_restore s ebx2_r radius dimx (i + 1) hsucc]
      have hd : delta1d s ebx2_r (i + 1) = prequant1d s ebx2_r (i + 1) := by
        unfold delta1d pred1d
        rw [if_pos hb]
        ring
      rw [hd]
    · have hle : blockStart i ≤ i + 1 := le_trans (blockStart_le i) (Nat.le_succ i)
      rw [inclusiveScan, blockStart_succ_of_mod_ne i hb, Finset.sum_Icc_succ_top hle,
        x_delta_restore s ebx2_r radius dimx (i + 1) hsucc]
      rw [show (∑ j in Finset.Icc (blockStart i) i,
          x_delta (c_lorenzo_1d1l_quant s ebx2_r radius)
            (c_lorenzo_1d1l_outlier s ebx2_r radius) radius dimx j)
          = inclusiveScan (x_delta (c_lorenzo_1d1l_quant s ebx2_r radius)
              (c_lorenzo_1d1l_outlier s ebx2_r radius) radius dimx) i from rfl,
        ih (by omega)]
      have hd : delta1d s ebx2_r (i + 1)
          = prequant1d s ebx2_r (i + 1) - prequant1d s ebx2_r i := by
        unfold delta1d pred1d
        rw [if_neg hb]
        simp
      rw [hd]
      push_cast
      ring

theorem x_lorenzo_recovers (s : ℕ → ℚ) (ebx2_r ebx2 : ℚ) (radius : ℤ) (dimx i : ℕ)
    (hi : i < dimx) :
    x_lorenzo_1d1l (c_lorenzo_1d1l_quant s ebx2_r radius)
      (c_lorenzo_1d1l_outlier s ebx2_r radius) dimx radius ebx2 i
      = ((prequant1d s ebx2_r i : ℤ) : ℚ) * ebx2 := by
  unfold x_lorenzo_1d1l
  rw [scan_restore s ebx2_r radius dimx i hi]

/-- C1. For every input array `s`, error bound `eb > 0`, and radius, every
sample reconstructed by running the 1D decompression kernel on the output
of the 1D compression kernel differs from the original by at most `eb`. -/
theorem claim_C1 (s : ℕ → ℚ) (eb : ℚ) (radius : ℤ) (dimx i : ℕ)
    (heb : 0 < eb) (hi : i < dimx) :
    |lorenzo_roundtrip_1d s eb radius dimx i - s i| ≤ eb := by
  unfold lorenzo_roundtrip_1d
  rw [x_lorenzo_recovers s (1 / (2 * eb)) (2 * eb) radius dimx i hi]
  have hq : prequant1d s (1 / (2 * eb)) i = roundAway (s i * (1 / (2 * eb))) := rfl
  rw [hq]
  set u := s i * (1 / (2 * eb)) with hu
  have hkey := roundAway_sub_le u
  have hs : s i = u * (2 * eb) := by
    rw [hu]
    field_simp
  rw [hs]
  have hfact : ((roundAway u : ℤ) : ℚ) * (2 * eb) - u * (2 * eb)
      = (((roundAway u : ℤ) : ℚ) - u) * (2 * eb) := by
    ring
  rw [hfact, abs_mul, abs_of_pos (by positivity : (0 : ℚ) < 2 * eb)]
  calc |((roundAway u : ℤ) : ℚ) - u| * (2 * eb)
      ≤ 1 / 2 * (2 * eb) := by
        apply mul_le_mul_of_nonneg_right hkey
        positivity
    _ = eb := by ring

/-- Witness for C1 at a concrete input. -/
theorem claim_C1_witness :
    0 < (1 : ℚ) / 2 ∧ 0 < 1
      ∧ |lorenzo_roundtrip_1d (fun _ => 3 / 4) (1 / 2) 4 1 0 - 3 / 4| ≤ 1 / 2 :=
  ⟨by norm_num, by norm_num, claim_C1 (fun _ => 3 / 4) (1 / 2) 4 1 0 (by norm_num) (by norm_num)⟩

/-- C2. Per-sample rule of the forward predictor: the prequantized value
is `round(s / (2*eb))`; the 3D prediction is the inclusion-exclusion sum
over the seven lower-index in-tile neighbors with out-of-grid neighbors
contributing zero; and with `delta = s-prequant minus prediction`, a
quantizable sample (`|delta| < radius`) emits `Q = delta + radius`,
`O = 0`, while any other sample emits `Q = 0` and `O = delta + radius`
cast to the real type. -/
theorem claim_C2 (s : ℕ → ℚ) (eb : ℚ) (sh : ℕ → ℕ → ℕ → ℤ) (radius d : ℤ) (i z y x : ℕ) :
    prequant1d s (1 / (2 * eb)) i = roundAway (s i / (2 * eb))
    ∧ pq_quant radius d = (if |d| < radius then d + radius else 0)
    ∧ pq_outlier radius d = (if |d| < radius then 0 else ((d + radius : ℤ) : ℚ))
    ∧ delta3d sh z y x = sh z y x - lorenzoPred3dSpec sh z y x
    ∧ delta1d s (1 / (2 * eb)) i
        = prequant1d s (1 / (2 * eb)) i - pred1d (prequant1d s (1 / (2 * eb))) i := by
  refine ⟨?_, ?_, ?_, ?_, rfl⟩
  · unfold prequant1d
    rw [mul_one_div]
  · unfold pq_quant
    by_cases h : |d| < radius
    · rw [if_pos h]
      unfold quantizable
      rw [decide_eq_true h, b2i_true, one_mul]
    · rw [if_neg h]
      unfold quantizable
      rw [decide_eq_false h, b2i_false, zero_mul]
  · unfold pq_outlier
    by_cases h : |d| < radius
    · rw [if_pos h]
      unfold quantizable
      rw [decide_eq_true h, b2i_true]
      norm_num
    · rw [if_neg h]
      unfold quantizable
      rw [decide_eq_false h, b2i_false]
      norm_num
  · unfold delta3d lorenzoPred3dSpec
    ring

/-- Counterexample for C3. At residual `delta = -radius` (input `-1`
with `ebx2_r = 1` and `radius = 1`), both the quant code and the outlier
are zero, so they are NOT exactly one of them zero. -/
theorem claim_C3_counterexample :
    ¬ exactlyOne (c_lorenzo_1d1l_quant (fun _ => -1) 1 1 0 = 0)
        (c_lorenzo_1d1l_outlier (fun _ => -1) 1 1 0 = 0) := by
  have hq : c_lorenzo_1d1l_quant (fun _ => -1) 1 1 0 = 0 := by
    norm_num [c_lorenzo_1d1l_quant, pq_quant, delta1d, prequant1d, pred1d, roundAway,
      quantizable, b2i, BLOCK1D]
  have ho : c_lorenzo_1d1l_outlier (fun _ => -1) 1 1 0 = 0 := by
    norm_num [c_lorenzo_1d1l_outlier, pq_outlier, delta1d, prequant1d, pred1d, roundAway,
      quantizable, b2i, BLOCK1D]
  intro hcase
  rcases hcase with ⟨_, h⟩ | ⟨h, _⟩
  · exact h ho
  · exact h hq

/-- C3 amended. After the forward predictor runs, for every sample at
least one of `Q[i]` and `O[i]` is zero, and both are zero exactly when
the residual equals `-radius` (an outlier whose carrier value is zero);
the claimed `exactly one is zero` fails precisely there. -/
theorem claim_C3 (s : ℕ → ℚ) (ebx2_r : ℚ) (radius : ℤ) (i : ℕ) :
    (c_lorenzo_1d1l_quant s ebx2_r radius i = 0 ∨ c_lorenzo_1d1l_outlier s ebx2_r radius i = 0)
    ∧ ((c_lorenzo_1d1l_quant s ebx2_r radius i = 0
          ∧ c_lorenzo_1d1l_outlier s ebx2_r radius i = 0)
        ↔ delta1d s ebx2_r i = -radius) := by
  unfold c_lorenzo_1d1l_quant c_lorenzo_1d1l_outlier pq_quant pq_outlier quantizable
  set d := delta1d s ebx2_r i with hd
  by_cases h : |d| < radius
  · rw [decide_eq_true h, b2i_true]
    constructor
    · right
      norm_num
    · constructor
      · rintro ⟨h1, -⟩
        rw [one_mul] at h1
        omega
      · intro h1
        have : -radius < d := by
          rcases abs_lt.mp h with ⟨h2, -⟩
          exact h2
        omega
  · rw [decide_eq_false h, b2i_false]
    constructor
    · left
      ring
    · constructor
      · rintro ⟨-, h1⟩
        norm_num at h1
        have : d + radius = 0 := by exact_mod_cast h1
        omega
      · intro h1
        refine ⟨by ring, ?_⟩
        norm_num
        exact_mod_cast (by omega : d + radius = 0)

/-- Counterexample for C4. The inverse kernel computes the fused
`outlier + quant - radius`, which differs from the spec formula
`(Q == 0 ? O : Q - radius)` when `Q = 0`: at `Q = 0`, `O = 5`,
`radius = 2` the kernel restores `3` while the formula yields `5`. -/
theorem claim_C4_counterexample :
    x_delta (fun _ => 0) (fun _ => 5) 2 1 0 ≠ spec_x_delta (fun _ => 0) (fun _ => 5) 2 0 := by
  norm_num [x_delta, spec_x_delta]

/-- C4 amended. The inverse kernel restores
`delta = O[i] + Q[i] - radius` (fused, not conditional) and, applied to
the outputs of the forward kernel, the blockwise inclusive prefix-sum of
those deltas recovers the prequantized value, which the kernel then
multiplies by `2*eb`. -/
theorem claim_C4 (Q : ℕ → ℤ) (O : ℕ → ℚ) (s : ℕ → ℚ) (eb : ℚ) (radius : ℤ) (dimx i : ℕ)
    (hi : i < dimx) :
    x_delta Q O radius dimx i = O i + (Q i : ℚ) - (radius : ℚ)
    ∧ x_lorenzo_1d1l (c_lorenzo_1d1l_quant s (1 / (2 * eb)) radius)
        (c_lorenzo_1d1l_outlier s (1 / (2 * eb)) radius) dimx radius (2 * eb) i
        = ((prequant1d s (1 / (2 * eb)) i : ℤ) : ℚ) * (2 * eb) := by
  constructor
  · unfold x_delta
    rw [if_pos hi]
  · exact x_lorenzo_recovers s (1 / (2 * eb)) (2 * eb) radius dimx i hi

/-- Witness for C4 at a concrete input. -/
theorem claim_C4_witness :
    (0 : ℕ) < 1
    ∧ (x_delta (fun _ => 0) (fun _ => 5) 4 1 0 = 5 + ((0 : ℤ) : ℚ) - ((4 : ℤ) : ℚ)
      ∧ x_lorenzo_1d1l (c_lorenzo_1d1l_quant (fun _ => 3) (1 / (2 * (1 / 2))) 4)
          (c_lorenzo_1d1l_outlier (fun _ => 3) (1 / (2 * (1 / 2))) 4) 1 4 (2 * (1 / 2)) 0
          = ((prequant1d (fun _ => 3) (1 / (2 * (1 / 2))) 0 : ℤ) : ℚ) * (2 * (1 / 2))) :=
  ⟨by norm_num, claim_C4 (fun _ => 0) (fun _ => 5) (fun _ => 3) (1 / 2) 4 1 0 (by norm_num)⟩

/-- Counterexample for C5. Compression modifies the callers input
buffer: for the single-sample input `1` with `eb = 1/2`, `radius = 4`,
the sample is quantizable, so the in-place outlier write leaves `0`
where the input held `1`. -/
theorem claim_C5_counterexample :
    buffer_after_compress (fun _ => 1) (1 / 2) 4 0 ≠ 1 := by
  norm_num [buffer_after_compress, c_lorenzo_1d1l_outlier, pq_outlier, delta1d, prequant1d,
    pred1d, roundAway, quantizable, b2i, BLOCK1D]

/-- C5 amended. Compression overwrites the callers input buffer with the
dense outlier plane: after a compress call, element `i` holds `0` when
sample `i` was quantizable and `delta + radius` otherwise, rather than
the original sample value. -/
theorem claim_C5 (s : ℕ → ℚ) (eb : ℚ) (radius : ℤ) (i : ℕ) :
    buffer_after_compress s eb radius i
      = (if |delta1d s (1 / (2 * eb)) i| < radius
          then 0 else ((delta1d s (1 / (2 * eb)) i + radius : ℤ) : ℚ)) := by
  unfold buffer_after_compress c_lorenzo_1d1l_outlier pq_outlier quantizable
  by_cases h : |delta1d s (1 / (2 * eb)) i| < radius
  · rw [decide_eq_true h, b2i_true, if_pos h]
    norm_num
  · rw [decide_eq_false h, b2i_false, if_neg h]
    norm_num

theorem header_entry_closed (a v s : ℕ) (h : 128 + SIZEOF_T * a + v + s < U32) :
    header_entry a v s 1 = 128
    ∧ header_entry a v s 2 = 128 + 4 * a
    ∧ header_entry a v s 3 = 128 + 4 * a + v
    ∧ header_entry a v s 4 = 128 + 4 * a + v + s := by
  have h' : 128 + 4 * a + v + s < 4294967296 := by
    simpa [SIZEOF_T, U32] using h
  have e1 : header_entry a v s 1 = (header_entry a v s 0 + subfile_nbyte a v s 0 % U32) % U32 :=
    rfl
  have e2 : header_entry a v s 2 = (header_entry a v s 1 + subfile_nbyte a v s 1 % U32) % U32 :=
    rfl
  have e3 : header_entry a v s 3 = (header_entry a v s 2 + subfile_nbyte a v s 2 % U32) % U32 :=
    rfl
  have e4 : header_entry a v s 4 = (header_entry a v s 3 + subfile_nbyte a v s 3 % U32) % U32 :=
    rfl
  have n0 : subfile_nbyte a v s 0 = 128 := rfl
  have n1 : subfile_nbyte a v s 1 = 4 * a := rfl
  have n2 : subfile_nbyte a v s 2 = v := rfl
  have n3 : subfile_nbyte a v s 3 = s := rfl
  have e0 : header_entry a v s 0 = 0 := rfl
  have E1 : header_entry a v s 1 = 128 := by
    rw [e1, e0, n0]
    unfold U32
    omega
  have E2 : header_entry a v s 2 = 128 + 4 * a := by
    rw [e2, E1, n1]
    unfold U32
    omega
  have E3 : header_entry a v s 3 = 128 + 4 * a + v := by
    rw [e3, E2, n2]
    unfold U32
    omega
  have E4 : header_entry a v s 4 = 128 + 4 * a + v + s := by
    rw [e4, E3, n3]
    unfold U32
    omega
  exact ⟨E1, E2, E3, E4⟩

/-- C6. With the fallback not forced and `use_fallback_codec` in its
entry value `false`: if the 4-byte encode raises the code-length
overflow, the orchestrator catches it once, re-encodes the same
quant-code stream with the 8-byte codec (allocating its workspace
lazily exactly when it was not pre-allocated) and sets
`header.byte_vle = 8`; when no fallback occurs it leaves the state
unchanged and sets `header.byte_vle = 4`. -/
theorem claim_C6 (alloc : Bool) :
    codec_do_with_exception false true ⟨false, alloc⟩
        = (⟨true, true⟩,
            CodecCall.encode4
              :: ((if alloc then [] else [CodecCall.alloc_fb]) ++ [CodecCall.encode8]))
    ∧ codec_do_with_exception false false ⟨false, alloc⟩ = (⟨false, alloc⟩, [CodecCall.encode4])
    ∧ update_header_byte_vle (codec_do_with_exception false true ⟨false, alloc⟩).1 = 8
    ∧ update_header_byte_vle (codec_do_with_exception false false ⟨false, alloc⟩).1 = 4 := by
  cases alloc <;> exact ⟨rfl, rfl, rfl, rfl⟩

/-- C7. The entry table computed by `subfile_collect` is monotone
non-decreasing across the subfile slots, and the reported
`compressed_len` equals `entry[END]`, provided the total archive size
fits a `uint32`. -/
theorem claim_C7 (a v s k : ℕ) (h : 128 + SIZEOF_T * a + v + s < U32) (hk : k < 4) :
    header_entry a v s k ≤ header_entry a v s (k + 1)
    ∧ compressed_len a v s = header_entry a v s 4 := by
  obtain ⟨E1, E2, E3, E4⟩ := header_entry_closed a v s h
  refine ⟨?_, rfl⟩
  interval_cases k
  · show header_entry a v s 0 ≤ header_entry a v s 1
    have e0 : header_entry a v s 0 = 0 := rfl
    rw [e0, E1]
    omega
  · show header_entry a v s 1 ≤ header_entry a v s 2
    rw [E1, E2]
    omega
  · show header_entry a v s 2 ≤ header_entry a v s 3
    rw [E2, E3]
    omega
  · show header_entry a v s 3 ≤ header_entry a v s 4
    rw [E3, E4]
    omega

/-- Witness for C7 at a concrete archive layout. -/
theorem claim_C7_witness :
    (128 + SIZEOF_T * 2 + 30 + 20 < U32 ∧ 0 < 4)
    ∧ (header_entry 2 30 20 0 ≤ header_entry 2 30 20 (0 + 1)
      ∧ compressed_len 2 30 20 = header_entry 2 30 20 4) :=
  ⟨⟨by norm_num [SIZEOF_T, U32], by norm_num⟩,
    claim_C7 2 30 20 0 (by norm_num [SIZEOF_T, U32]) (by norm_num)⟩

/-- Counterexample for C8. A compress call with `data_len = 4` and
subfile sizes `(anchor, vle, spfmt) = (0, 30, 20)` reports
`compressed_len = 178`, which exceeds the reserved
`N * sizeof(T) / 2 = 8` bytes, and no OutputInflation error is raised:
the source has no such check. -/
theorem claim_C8_counterexample :
    compressed_len 0 30 20 = 178
    ∧ reserved_len 4 = 8
    ∧ ¬ compressed_len 0 30 20 ≤ reserved_len 4
    ∧ ∀ e : CompressError, compress_collect 0 30 20 ≠ Except.error e := by
  refine ⟨rfl, rfl, by decide, ?_⟩
  intro e h
  exact Except.noConfusion h

/-- C8 amended. The compressor reserves `N * sizeof(T) / 2` bytes but
never checks the total against the reservation: `compress` always
returns normally, reporting `compressed_len = entry[END]
= 128 + anchor + vle + spfmt` bytes, which can exceed the reserved
buffer; no OutputInflation error path exists in the code. -/
theorem claim_C8 (a v s : ℕ) (h : 128 + SIZEOF_T * a + v + s < U32) :
    compress_collect a v s = Except.ok (compressed_len a v s)
    ∧ compressed_len a v s = 128 + SIZEOF_T * a + v + s := by
  refine ⟨rfl, ?_⟩
  obtain ⟨-, -, -, E4⟩ := header_entry_closed a v s h
  simpa [compressed_len, header_file_size, SIZEOF_T] using E4

/-- Witness for C8 at a concrete input. -/
theorem claim_C8_witness :
    128 + SIZEOF_T * 0 + 30 + 20 < U32
    ∧ (compress_collect 0 30 20 = Except.ok (compressed_len 0 30 20)
      ∧ compressed_len 0 30 20 = 128 + SIZEOF_T * 0 + 30 + 20) :=
  ⟨by norm_num [SIZEOF_T, U32], claim_C8 0 30 20 (by norm_num [SIZEOF_T, U32])⟩

/-- C9. The decompress-side Huffman step selects the codec solely from
the archive headers `byte_vle` field: `byte_vle = 8` decodes with the
8-byte codec, allocating it lazily exactly when it was not yet
allocated, and `byte_vle = 4` decodes with the default 4-byte codec
leaving the allocation flag untouched. -/
theorem claim_C9 (alloc : Bool) :
    decompress_codec_do 8 alloc
        = (true, true, (if alloc then [] else [CodecCall.alloc_fb]) ++ [CodecCall.decode8])
    ∧ decompress_codec_do 4 alloc = (false, alloc, [CodecCall.decode4]) := by
  cases alloc <;> exact ⟨rfl, rfl⟩

/-- C10. A compress call reads `m * m` input elements with
`m = ceil(sqrt(N))`: the gather length equals `get_square_size N`
squared, is at least `N`, and stays within the drivers `m * m`
allocation; `get_square_size` is the least `k` with `N ≤ k * k`; and at
`N = 5` the read strictly exceeds `N` (so allocating only `N` elements
would be out of bounds). -/
theorem claim_C10 (n k : ℕ) (hk : n ≤ k * k) :
    spreducer_gather_len n = get_square_size n * get_square_size n
    ∧ n ≤ spreducer_gather_len n
    ∧ spreducer_gather_len n ≤ driver_alloc_len n
    ∧ get_square_size n ≤ k
    ∧ 5 < spreducer_gather_len 5 := by
  refine ⟨rfl, ?_, le_refl _, ?_, by norm_num [spreducer_gather_len, get_square_size]⟩
  · unfold spreducer_gather_len get_square_size
    by_cases h : Nat.sqrt n * Nat.sqrt n = n
    · rw [if_pos h, h]
    · rw [if_neg h]
      exact le_of_lt (Nat.lt_succ_sqrt n)
  · unfold get_square_size
    by_cases h : Nat.sqrt n * Nat.sqrt n = n
    · rw [if_pos h]
      calc Nat.sqrt n ≤ Nat.sqrt (k * k) := Nat.sqrt_le_sqrt hk
        _ = k := Nat.sqrt_eq k
    · rw [if_neg h]
      by_contra hcon
      push_neg at hcon
      have hks : k ≤ Nat.sqrt n := by omega
      have h1 : k * k ≤ Nat.sqrt n * Nat.sqrt n := Nat.mul_le_mul hks hks
      have h2 : Nat.sqrt n * Nat.sqrt n ≤ n := Nat.sqrt_le n
      exact h (le_antisymm h2 (hk.trans h1))

/-- Witness for C10 at a concrete length. -/
theorem claim_C10_witness :
    5 ≤ 3 * 3
    ∧ (spreducer_gather_len 5 = get_square_size 5 * get_square_size 5
      ∧ 5 ≤ spreducer_gather_len 5
      ∧ spreducer_gather_len 5 ≤ driver_alloc_len 5
      ∧ get_square_size 5 ≤ 3
      ∧ 5 < spreducer_gather_len 5) :=
  ⟨by norm_num, claim_C10 5 3 (by norm_num)⟩

end Cusz
